import Mathlib

/-
Verification of the EduVid video-generation backend
(`backend/app/services/image_service.py` and
`backend/app/services/video_service.py`).

Strings are embedded as `List Char`; Python floats as `ℚ`; network,
subprocess and filesystem effects as explicit oracle parameters.
-/

set_option maxRecDepth 4000

-- ───────────────────────── Python string helpers ─────────────────────────

/-- Characters removed by Python's `str.strip()` (ASCII whitespace). -/
def isPySpace (c : Char) : Bool :=
  c = ' ' || c = '\t' || c = '\n' || c = '\x0b' || c = '\x0c' || c = '\r'

/-- Python `s.strip()`. -/
def pyStrip (s : List Char) : List Char :=
  ((s.dropWhile isPySpace).reverse.dropWhile isPySpace).reverse

/-- Accumulator worker for `pySplitWs`. -/
def splitWsAux : List Char → List Char → List (List Char)
  | [], acc => if acc = [] then [] else [acc.reverse]
  | c :: cs, acc =>
    if isPySpace c then
      if acc = [] then splitWsAux cs [] else acc.reverse :: splitWsAux cs []
    else splitWsAux cs (c :: acc)

/-- Python `s.split()`: split on whitespace runs, dropping empty pieces. -/
def pySplitWs (s : List Char) : List (List Char) :=
  splitWsAux s []

/-- Python `" ".join(parts)`. -/
def joinSp : List (List Char) → List Char
  | [] => []
  | [s] => s
  | s :: t :: rest => s ++ ' ' :: joinSp (t :: rest)

/-- Split a character list at every `'|'` (Python `s.split("|")`,
keeping empty pieces). -/
def splitBar : List Char → List Char → List (List Char)
  | [], acc => [acc.reverse]
  | c :: cs, acc =>
    if c = '|' then acc.reverse :: splitBar cs [] else splitBar cs (c :: acc)

-- ───────────────────────── image_service.py ─────────────────────────

/-- A raster image: target dimensions plus an abstract pixel-content tag
(the content of a generated image is a deterministic function of the
inputs recorded in `data`). -/
structure Image where
  width : Nat
  height : Nat
  data : Int
deriving DecidableEq, Repr

/-- `GRADIENT_PRESETS`: the fixed palette of (top, bottom) gradient colors. -/
def GRADIENT_PRESETS : List ((Nat × Nat × Nat) × (Nat × Nat × Nat)) :=
  [ ((20, 20, 50), (220, 60, 90)),
    ((10, 35, 80), (0, 190, 230)),
    ((45, 20, 95), (230, 95, 95)),
    ((15, 25, 55), (85, 175, 230)),
    ((30, 5, 50), (190, 45, 135)),
    ((5, 30, 40), (0, 200, 140)),
    ((40, 10, 10), (240, 150, 50)),
    ((10, 10, 40), (80, 60, 200)) ]

/-- Modelled from the Python runtime: the built-in `hash()` on strings is
keyed by a per-process random salt (hash randomization, PYTHONHASHSEED);
we model it as a deterministic rolling hash offset by the process salt. -/
def pythonStrHash (salt : Int) (s : List Char) : Int :=
  salt + s.foldl (fun a c => a * 131 + (c.toNat : Int)) 0

/-- The RNG seed `hash(topic) + variant` used for the bokeh circles in
`create_fallback_image`. -/
def fallback_seed (salt : Int) (topic : List Char) (variant : Nat) : Int :=
  pythonStrHash salt topic + (variant : Int)

/-- `create_fallback_image(topic, width, height, variant)`: offline gradient
plus bokeh fallback.  The pixel content is fully determined by the target
size, the gradient preset `GRADIENT_PRESETS[variant % 8]` and the bokeh RNG
seed, so `data` records that seed (the preset index is itself a function of
`variant`, which the seed already determines relative to a fixed salt and
topic). -/
def create_fallback_image (salt : Int) (topic : List Char)
    (width height : Nat) (variant : Nat) : Image :=
  let _gradIdx := variant % GRADIENT_PRESETS.length
  ⟨width, height, fallback_seed salt topic variant⟩

/-- The question-prefix list stripped by `extract_topic`. -/
def QUESTION_PREFIXES : List (List Char) :=
  [ "what is a ", "what is an ", "what is the ", "what is ",
    "what are ", "who is ", "who was ", "who are ",
    "how does ", "how do ", "how is ", "how are ",
    "why is ", "why do ", "why are ",
    "explain ", "describe ", "tell me about ",
    "define ", "show me ", "teach me about " ].map String.toList

/-- Python `q.rstrip("?!.")`. -/
def rstripPunct (s : List Char) : List Char :=
  (s.reverse.dropWhile (fun c => c = '?' || c = '!' || c = '.')).reverse

/-- `extract_topic(question)`: lowercase, strip, drop trailing `?!.`, then
remove the first matching question prefix. -/
def extract_topic (question : List Char) : List Char :=
  let q := rstripPunct (pyStrip (question.map Char.toLower))
  match QUESTION_PREFIXES.find? (fun pre => pre.isPrefixOf q) with
  | some pre => pyStrip (q.drop pre.length)
  | none => q

/-- Dimensions chosen by `resize_crop` before cropping:
`ratio = max(tw/w, th/h)`, `nw = max(int(w*ratio), tw)`,
`nh = max(int(h*ratio), th)` (Python `int()` truncates; the scaled sizes
are non-negative, so truncation is the floor). -/
def resize_dims (sw sh tw th : Nat) : Nat × Nat :=
  let r : ℚ := max ((tw : ℚ) / (sw : ℚ)) ((th : ℚ) / (sh : ℚ))
  (max (⌊(sw : ℚ) * r⌋.toNat) tw, max (⌊(sh : ℚ) * r⌋.toNat) th)

/-- PIL `img.resize((nw, nh))`: the result has exactly the requested size. -/
def img_resize (img : Image) (nw nh : Nat) : Image :=
  ⟨nw, nh, img.data⟩

/-- PIL `img.crop((l, t, r, b))`: the result has size `(r - l, b - t)`. -/
def img_crop (img : Image) (l t r b : Nat) : Image :=
  ⟨r - l, b - t, img.data⟩

/-- `resize_crop(img, tw, th)`: scale to cover the target box, then
center-crop to the exact target dimensions. -/
def resize_crop (img : Image) (tw th : Nat) : Image :=
  let nw := (resize_dims img.width img.height tw th).1
  let nh := (resize_dims img.width img.height tw th).2
  let img2 := img_resize img nw nh
  let l := (nw - tw) / 2
  let t := (nh - th) / 2
  img_crop img2 l t (l + tw) (t + th)

/-- `_make_prompts(topic, segments)`: one generic prompt plus one prompt per
segment (first five segments, first 80 characters each). -/
def _make_prompts (topic : List Char) (segments : List (List Char)) :
    List (List Char) :=
  ("3D cinematic render of ".toList ++ topic ++
      ", vibrant colors, studio lighting, dark background, highly detailed, 8k".toList) ::
    (segments.take 5).map (fun seg =>
      "3D illustration of ".toList ++ topic ++ ", showing: ".toList ++
        pyStrip (seg.take 80) ++
        ", cinematic lighting, vivid colors, professional".toList)

/-- Simulated Python exceptions. -/
inductive PyExc where
  | timeoutError
  | runtimeError
  | indexError
  | futuresTimeoutError
deriving DecidableEq, Repr

/-- Decidable equality for simulated raising computations. -/
instance {ε α : Type} [DecidableEq ε] [DecidableEq α] :
    DecidableEq (Except ε α) := fun a b =>
  match a, b with
  | .error e, .error f => decidable_of_iff (e = f) (by simp)
  | .error _, .ok _ => isFalse (by simp)
  | .ok _, .error _ => isFalse (by simp)
  | .ok x, .ok y => decidable_of_iff (x = y) (by simp)

/-- The state of slot `i` after the photo-search tier (`tier1`) and the
AI-generation tier (`tier2`) have run without either tier's overall
collection deadline elapsing: a successful download fills the slot, the AI
tier is attempted only for still-empty slots whose index has a prompt, and
every per-future failure (caught by the inner `try/except` around
`fut.result`) just leaves the slot empty.  The overall-deadline
`TimeoutError` that `as_completed(futures, timeout=...)` itself can raise
is *not* caught there; it is modelled in `get_topic_images`.  `tier1` and
`tier2` are oracles abstracting the network. -/
def acquire_slot (tier1 tier2 : Nat → Option Image)
    (promptCount : Nat) (i : Nat) : Option Image :=
  match tier1 i with
  | some img => some img
  | none => if i < promptCount then tier2 i else none

/-- What one run of `get_topic_images` can observe of the network: the
per-slot results the two concurrent phases would collect, plus, for each
phase, whether its `as_completed(futures, timeout=30/60)` iterator's
overall deadline elapsed with futures still outstanding (which makes the
iterator raise `concurrent.futures.TimeoutError`; only possible when that
phase actually submitted futures). -/
structure ImageNetOracle where
  tier1 : Nat → Option Image
  tier1_timeout : Bool
  tier2 : Nat → Option Image
  tier2_timeout : Bool

/-- The slot list produced when neither collection deadline elapses:
`needed = 1 + len(segments[:5])` slots, tiers 1 and 2 fill what they can,
and the final loop replaces every remaining `None` with the offline
gradient fallback for that slot. -/
def filled_slots (salt : Int) (tier1 tier2 : Nat → Option Image)
    (question : List Char) (segments : List (List Char))
    (width height : Nat) : List (Option Image) :=
  let needed := 1 + (segments.take 5).length
  let topic := extract_topic question
  let prompts := _make_prompts topic segments
  (List.range needed).map (fun i =>
    match acquire_slot tier1 tier2 prompts.length i with
    | some img => some img
    | none => some (create_fallback_image salt topic width height i))

/-- `get_topic_images(question, segments, width, height)`.  The tier-1
`for fut in as_completed(futures, timeout=30)` loop and the tier-2
`as_completed(futures, timeout=60)` loop sit *outside* the inner
`try/except` blocks, so when a phase's overall deadline elapses with
futures outstanding the `TimeoutError` propagates out of the function:
the gradient tier never runs and no list is returned.  The tier-2 loop is
reached only when gaps remain after tier 1 (and every gap index has a
prompt, since `len(prompts) = needed`). -/
def get_topic_images (salt : Int) (o : ImageNetOracle)
    (question : List Char) (segments : List (List Char))
    (width height : Nat) : Except PyExc (List (Option Image)) :=
  let needed := 1 + (segments.take 5).length
  if o.tier1_timeout = true then .error .futuresTimeoutError
  else if ((List.range needed).filter (fun i => o.tier1 i = none)) ≠ [] ∧
      o.tier2_timeout = true then
    .error .futuresTimeoutError
  else
    .ok (filled_slots salt o.tier1 o.tier2 question segments width height)

-- ───────────────────────── video_service.py ─────────────────────────

/-- Insert a `'|'` marker after every `'!'`, `'.'` and `'?'`
(the `script.replace("!", "!|").replace(".", ".|").replace("?", "?|")`
step of `split_script_into_segments`; the inserted marker never matches a
later pattern, so the three sequential replacements equal this one pass). -/
def markSentences (script : List Char) : List Char :=
  script.flatMap (fun c => if c = '!' || c = '.' || c = '?' then [c, '|'] else [c])

/-- The stripped sentence fragments that survive the length filter
(`len(part) > 10`) in `split_script_into_segments`. -/
def sentencesOf (script : List Char) : List (List Char) :=
  ((splitBar (markSentences script) []).map pyStrip).filter
    (fun p => 10 < p.length)

/-- One step of the greedy sentence-packing loop: the state is
(finished segments, current chunk). -/
def packStep (st : List (List Char) × List Char) (s : List Char) :
    List (List Char) × List Char :=
  if st.2.length + s.length < 200 then
    (st.1, if st.2 = [] then s else st.2 ++ ' ' :: s)
  else
    ((if st.2 = [] then st.1 else st.1 ++ [st.2]), s)

/-- Append the trailing chunk, if non-empty, after the packing loop. -/
def packFinish (st : List (List Char) × List Char) : List (List Char) :=
  if st.2 = [] then st.1 else st.1 ++ [st.2]

/-- `split_script_into_segments(script)`. -/
def split_script_into_segments (script : List Char) : List (List Char) :=
  let segments := packFinish ((sentencesOf script).foldl packStep ([], []))
  if segments = [] then [script] else segments

-- Subtitles -----------------------------------------------------------------

/-- Round half to even (the rounding Python's built-in `round` applies). -/
def rhe (q : ℚ) : Int :=
  if q - ⌊q⌋ < 1/2 then ⌊q⌋
  else if 1/2 < q - ⌊q⌋ then ⌊q⌋ + 1
  else if 2 ∣ ⌊q⌋ then ⌊q⌋ else ⌊q⌋ + 1

/-- Python `round(q, 2)`. -/
def round2 (q : ℚ) : ℚ :=
  (rhe (q * 100) : ℚ) / 100

/-- A subtitle cue `{"text": ..., "start": ..., "end": ...}`
(the `end` key is spelled `stop` here). -/
structure Cue where
  text : List Char
  start : ℚ
  stop : ℚ
deriving DecidableEq, Repr

/-- `generate_subtitle_data(script, total_duration)`: split into words,
one cue per window of 6 words, with a uniform per-word time slice and
2-decimal rounding; the end is clamped to the total duration. -/
def generate_subtitle_data (script : List Char) (total_duration : ℚ) :
    List Cue :=
  let words := pySplitWs script
  if words.length = 0 then []
  else
    let tpw := total_duration / (words.length : ℚ)
    (List.range ((words.length + 5) / 6)).map (fun j =>
      { text := joinSp ((words.drop (6 * j)).take 6)
        start := round2 ((6 * j : Nat) * tpw)
        stop := round2 (min (((6 * j + 6 : Nat) : ℚ) * tpw) total_duration) })

-- TTS -----------------------------------------------------------------------

/-- The observable outcome of one `generate_tts_audio` attempt: whether the
gTTS worker process finished within the 30 s timeout, whether the output
file exists, its size in bytes, and the duration the MP3 probe would
measure. -/
structure TTSOracle where
  completes : Bool
  out_exists : Bool
  out_size : Nat
  mp3_length : ℚ
deriving Repr

/-- The `try` body of `generate_tts_audio`: raise on timeout, return the
measured MP3 duration when the file exists and exceeds 1000 bytes, raise
otherwise. -/
def tts_try (o : TTSOracle) : Except PyExc ℚ :=
  if o.completes = false then .error .timeoutError
  else if o.out_exists = true ∧ 1000 < o.out_size then .ok o.mp3_length
  else .error .runtimeError

/-- `generate_tts_audio(text, output_path)`: total — every exception from
the attempt is caught, and the fallback path writes silent audio (its own
ffmpeg failure is also swallowed) and returns the word-count estimate
`max(len(text.split()) / 2.5, 15)`. -/
def generate_tts_audio (text : List Char) (o : TTSOracle) : ℚ :=
  match tts_try o with
  | .ok d => d
  | .error _ => max (((pySplitWs text).length : ℚ) / (5/2)) 15

-- Crossfade assembly --------------------------------------------------------

/-- `CROSSFADE_DURATION = 0.6` seconds. -/
def CROSSFADE_DURATION : ℚ := 3/5

/-- The transition offset computed inside `_xfade_chain` from the probed
duration of the current merged clip:
`offset = max(cur_duration - fade_dur, 0.1)`. -/
def xfade_offset (cur_duration : ℚ) : ℚ :=
  max (cur_duration - CROSSFADE_DURATION) (1/10)

/-- The sequence of offsets used by `_xfade_chain` over `nclips` clips,
given the oracle `probe` reporting the ffprobe duration of the merged
clip entering each of the `nclips - 1` transitions. -/
def _xfade_chain_offsets (probe : Nat → ℚ) (nclips : Nat) : List ℚ :=
  (List.range (nclips - 1)).map (fun k => xfade_offset (probe k))

-- Frame rendering and orchestration ----------------------------------------

/-- Python list indexing `l[i]`, including negative indices;
`none` models an `IndexError`. -/
def pyIndex {α : Type} (l : List α) (i : Int) : Option α :=
  if 0 ≤ i then l[i.toNat]?
  else if (-i).toNat ≤ l.length then l[l.length - (-i).toNat]? else none

/-- The background chosen for content frame `i` in `create_video`:
`images[i + 1] if i + 1 < len(images) else images[-1]`. -/
def pick_image (images : List (Option Image)) (i : Nat) :
    Option (Option Image) :=
  if i + 1 < images.length then pyIndex images ((i : Int) + 1)
  else pyIndex images (-1)

/-- A composed frame: `create_frame`'s rendering is abstracted as the
record of its inputs. -/
structure Frame where
  image : Option Image
  text : List Char
  slide_number : Nat
  total_slides : Nat
  isTitle : Bool
  width : Nat
  height : Nat
deriving DecidableEq, Repr

/-- `create_frame(image, text, slide_number, total_slides, is_title,
width, height, accent)` (accent colors do not affect any claim and are
omitted). -/
def create_frame (image : Option Image) (text : List Char)
    (slide_number total_slides : Nat) (isTitle : Bool)
    (width height : Nat) : Frame :=
  ⟨image, text, slide_number, total_slides, isTitle, width, height⟩

/-- Run an index-keyed producer over a list of indices, failing as soon as
one lookup fails (the frame loop raises out of `create_video` if an image
access raises). -/
def collectFrames (g : Nat → Option Frame) : List Nat → Option (List Frame)
  | [] => some []
  | i :: is =>
    match g i, collectFrames g is with
    | some f, some fs => some (f :: fs)
    | _, _ => none

/-- Turn a failed (`none`) lookup into a raised exception: Python list
indexing raises instead of returning a missing value. -/
def pyRaise {α : Type} (oa : Option α) (e : PyExc) : Except PyExc α :=
  match oa with
  | none => .error e
  | some a => .ok a

/-- The image-acquisition plus frame-rendering phase of `create_video`:
`get_topic_images` may raise (overall collection timeout), and otherwise
one title frame is composed from `images[0]`, then one content frame per
segment with the `images[i+1]` / `images[-1]` selection. -/
def create_video_frames (salt : Int) (net : ImageNetOracle)
    (question script : List Char) (width height : Nat) :
    Except PyExc (List Frame) :=
  let segments := split_script_into_segments script
  (get_topic_images salt net question segments width height).bind
    (fun images =>
      (pyRaise (pyIndex images 0) .indexError).bind (fun img0 =>
        (pyRaise (collectFrames
            (fun i =>
              (pick_image images i).map (fun img =>
                create_frame img (segments.getD i []) (i + 1) segments.length
                  false width height))
            (List.range segments.length)) .indexError).map
          (fun cs => create_frame img0 question 0 segments.length true
            width height :: cs)))

/-- The manifest returned by a successful `create_video` run. -/
structure Manifest where
  duration : Int
  subtitle_cues : List Cue
  frame_count : Nat
deriving Repr

/-- All the external effects one `create_video` job can observe. -/
structure RunOracle where
  salt : Int
  net : ImageNetOracle
  tts : TTSOracle
  kenburns_ok : Bool
  simple_ok : Bool

/-- `create_video(video_id, question, script)`: the whole orchestrator.
The returned pair is (job result, whether the job-scoped temporary
directory still exists).  The body runs inside `try ... finally
shutil.rmtree(temp_dir)`, so the directory is created first and removed on
both the success and the exception path. -/
def create_video (question script : List Char) (width height : Nat)
    (o : RunOracle) (_tempDirExists0 : Bool) : Except PyExc Manifest × Bool :=
  -- os.makedirs(temp_dir, exist_ok=True)
  let _tempDirExists : Bool := true
  let result : Except PyExc Manifest :=
    let audio_dur : ℚ := max (generate_tts_audio script o.tts) 10
    match create_video_frames o.salt o.net question script width height with
    | .error e => .error e
    | .ok frames =>
      let subs := generate_subtitle_data script audio_dur
      if o.kenburns_ok = true || o.simple_ok = true then
        .ok { duration := ⌊audio_dur⌋
              subtitle_cues := subs
              frame_count := frames.length }
      else
        -- both assembly paths failed: the exception propagates
        .error .runtimeError
  -- finally: shutil.rmtree(temp_dir, ignore_errors=True)
  (result, false)

-- ───────────────────────── helper lemmas ─────────────────────────

lemma filled_slots_length (salt : Int) (tier1 tier2 : Nat → Option Image)
    (question : List Char) (segments : List (List Char)) (width height : Nat) :
    (filled_slots salt tier1 tier2 question segments width height).length
      = 1 + min segments.length 5 := by
  simp [filled_slots, Nat.min_comm]

lemma filled_slots_all_isSome (salt : Int)
    (tier1 tier2 : Nat → Option Image) (question : List Char)
    (segments : List (List Char)) (width height : Nat) :
    ∀ slot ∈ filled_slots salt tier1 tier2 question segments width height,
      slot.isSome = true := by
  intro slot hslot
  simp only [filled_slots, List.mem_map, List.mem_range] at hslot
  obtain ⟨i, _, rfl⟩ := hslot
  cases h : acquire_slot tier1 tier2
      (_make_prompts (extract_topic question) segments).length i <;> simp [h]

lemma filled_slots_ne_nil (salt : Int) (tier1 tier2 : Nat → Option Image)
    (question : List Char) (segments : List (List Char)) (width height : Nat) :
    filled_slots salt tier1 tier2 question segments width height ≠ [] := by
  intro hcon
  have := congrArg List.length hcon
  rw [filled_slots_length] at this
  simp at this

lemma get_topic_images_ok (salt : Int) (o : ImageNetOracle)
    (question : List Char) (segments : List (List Char))
    (width height : Nat) (images : List (Option Image))
    (h : get_topic_images salt o question segments width height = .ok images) :
    images = filled_slots salt o.tier1 o.tier2 question segments
      width height := by
  simp only [get_topic_images] at h
  split_ifs at h
  injection h with h
  exact h.symm

lemma get_topic_images_no_timeout (salt : Int) (o : ImageNetOracle)
    (question : List Char) (segments : List (List Char))
    (width height : Nat) (h1 : o.tier1_timeout = false)
    (h2 : o.tier2_timeout = false) :
    get_topic_images salt o question segments width height =
      .ok (filled_slots salt o.tier1 o.tier2 question segments
        width height) := by
  simp [get_topic_images, h1, h2]

lemma exceptBind_ok {ε α β : Type} (a : α) (f : α → Except ε β) :
    (Except.ok a : Except ε α).bind f = f a := rfl

lemma exceptMap_ok {ε α β : Type} (a : α) (f : α → β) :
    (Except.ok a : Except ε α).map f = .ok (f a) := rfl

lemma pyRaise_some {α : Type} (a : α) (e : PyExc) :
    pyRaise (some a) e = .ok a := rfl

lemma pyIndex_neg_one {α : Type} (l : List α) (h : l ≠ []) :
    pyIndex l (-1) = l.getLast? := by
  have hlen : 1 ≤ l.length := List.length_pos.mpr h
  rw [List.getLast?_eq_getElem?]
  norm_num [pyIndex, hlen]

lemma pick_image_spec (images : List (Option Image)) (i : Nat)
    (h : images ≠ []) :
    (pick_image images i).isSome = true ∧
    (i + 1 < images.length → pick_image images i = images[i + 1]?) ∧
    (images.length ≤ i + 1 → pick_image images i = images.getLast?) := by
  have h1le : 1 ≤ images.length := List.length_pos.mpr h
  by_cases hc : i + 1 < images.length
  · have h0 : (0 : Int) ≤ (i : Int) + 1 := by positivity
    have ht : ((i : Int) + 1).toNat = i + 1 := by omega
    have heq : pick_image images i = images[i + 1]? := by
      simp [pick_image, hc, pyIndex, h0, ht]
    refine ⟨?_, fun _ => heq, fun hle => absurd hc (by omega)⟩
    rw [heq, List.getElem?_eq_getElem hc]
    rfl
  · have heq : pick_image images i = images.getLast? := by
      simp only [pick_image, hc, if_false]
      exact pyIndex_neg_one images h
    refine ⟨?_, fun hlt => absurd hlt hc, fun _ => heq⟩
    rw [heq, List.getLast?_eq_getElem?,
      List.getElem?_eq_getElem (by omega)]
    rfl

-- ───────────────────────── claims ─────────────────────────

/-- Oracle for a run whose tier-1 collection deadline elapses with
downloads still outstanding (reachable: e.g. six ~20 s downloads on the
3-worker pool against the 30 s `as_completed` window). -/
def c1slow : ImageNetOracle := ⟨fun _ => none, true, fun _ => none, false⟩

/-- Oracle for a run in which every download and AI request fails fast,
with neither phase's overall deadline elapsing. -/
def c1nonet : ImageNetOracle := ⟨fun _ => none, false, fun _ => none, false⟩

/-- C1 (evidence for the code bug): both tier loops iterate
`for fut in as_completed(futures, timeout=30/60)` *outside* the inner
`try/except` around `fut.result`, so when a phase's overall collection
deadline elapses with futures outstanding, `get_topic_images` raises
`concurrent.futures.TimeoutError` — the gradient tier never runs and no
list is returned, refuting "errors are swallowed at each tier / a filled
list is always returned".  A run without an overall timeout does return
`1 + min(len(segments), 5)` slots, every one filled. -/
theorem C1_overall_timeout_uncaught :
    get_topic_images 0 c1slow "sun".toList
        ["The sun is a star".toList] 720 1280 =
      .error .futuresTimeoutError ∧
    (get_topic_images 0 c1nonet "sun".toList
        ["The sun is a star".toList] 720 1280).map List.length = .ok 2 ∧
    (get_topic_images 0 c1nonet "sun".toList
        ["The sun is a star".toList] 720 1280).map
      (fun l => l.all Option.isSome) = .ok true :=
  ⟨rfl, by decide, by decide⟩

/-- C5: `generate_tts_audio` is total (every synthesis failure is caught):
when the gTTS worker finishes in time and its output file exists with more
than 1000 bytes, the measured MP3 duration is returned; on timeout, crash
or empty/undersized output the silent-audio path returns the estimate
`max(len(text.split()) / 2.5, 15)`. -/
theorem C5_tts_never_raises (text : List Char) (o : TTSOracle) :
    (o.completes = true → o.out_exists = true → 1000 < o.out_size →
        generate_tts_audio text o = o.mp3_length) ∧
    (o.completes = false ∨ o.out_exists = false ∨ o.out_size ≤ 1000 →
        generate_tts_audio text o =
            max (((pySplitWs text).length : ℚ) / (5/2)) 15 ∧
          15 ≤ generate_tts_audio text o) := by
  constructor
  · intro h1 h2 h3
    simp [generate_tts_audio, tts_try, h1, h2, h3]
  · intro h
    have hfb : generate_tts_audio text o =
        max (((pySplitWs text).length : ℚ) / (5/2)) 15 := by
      rcases h with h | h | h
      · simp [generate_tts_audio, tts_try, h]
      · cases hc : o.completes
        · simp [generate_tts_audio, tts_try, hc]
        · simp [generate_tts_audio, tts_try, hc, h]
      · cases hc : o.completes
        · simp [generate_tts_audio, tts_try, hc]
        · simp [generate_tts_audio, tts_try, hc, Nat.not_lt.mpr h]
    exact ⟨hfb, hfb ▸ le_max_right _ _⟩

/-- Concrete TTS outcome in which the worker timed out. -/
def c5oracle : TTSOracle := ⟨false, false, 0, 0⟩

/-- C5 witness: a timed-out synthesis of a 2-word text returns the silent
fallback estimate. -/
theorem C5_witness :
    generate_tts_audio "hello world".toList c5oracle =
        max (((pySplitWs "hello world".toList).length : ℚ) / (5/2)) 15 ∧
      15 ≤ generate_tts_audio "hello world".toList c5oracle :=
  (C5_tts_never_raises "hello world".toList c5oracle).2 (Or.inl rfl)

/-- C6: the crossfade offset in `_xfade_chain` equals
`max(d - CROSSFADE_DURATION, 0.1)` for the probed clip duration `d`; every
offset in the chain is strictly positive, and whenever `d` does not exceed
the crossfade length the floor `0.1` is used. -/
theorem C6_offset_clamped (probe : Nat → ℚ) (nclips : Nat) :
    (∀ d : ℚ, xfade_offset d = max (d - CROSSFADE_DURATION) (1/10)) ∧
    (∀ off ∈ _xfade_chain_offsets probe nclips, 0 < off) ∧
    (∀ d : ℚ, d ≤ CROSSFADE_DURATION → xfade_offset d = 1/10) := by
  refine ⟨fun d => rfl, ?_, ?_⟩
  · intro off hoff
    simp only [_xfade_chain_offsets, List.mem_map] at hoff
    obtain ⟨k, _, rfl⟩ := hoff
    calc (0 : ℚ) < 1/10 := by norm_num
    _ ≤ xfade_offset (probe k) := le_max_right _ _
  · intro d hd
    have : d - CROSSFADE_DURATION ≤ 1/10 := by linarith
    simpa [xfade_offset] using max_eq_right this

/-- C6 witness: a 0.5 s clip (shorter than the 0.6 s crossfade) gets the
clamped offset 0.1. -/
theorem C6_witness : xfade_offset (1/2) = 1/10 :=
  (C6_offset_clamped (fun _ => 0) 0).2.2 (1/2)
    (by norm_num [CROSSFADE_DURATION])

/-- C8: for a source image with positive dimensions, `resize_crop` returns
an image of exactly the target dimensions; the cover scale factor
`max(tw/sw, th/sh)` already scales each source side to at least the target
(so the subsequent center-crop stays inside the scaled image — no
letterboxing and no distortion), and the crop window fits inside the
resized image. -/
theorem C8_resize_crop_exact (img : Image) (tw th : Nat)
    (hw : 0 < img.width) (hh : 0 < img.height) :
    (resize_crop img tw th).width = tw ∧
    (resize_crop img tw th).height = th ∧
    (tw : ℚ) ≤ (img.width : ℚ) *
        max ((tw : ℚ) / (img.width : ℚ)) ((th : ℚ) / (img.height : ℚ)) ∧
    (th : ℚ) ≤ (img.height : ℚ) *
        max ((tw : ℚ) / (img.width : ℚ)) ((th : ℚ) / (img.height : ℚ)) ∧
    tw ≤ (⌊(img.width : ℚ) *
        max ((tw : ℚ) / (img.width : ℚ)) ((th : ℚ) / (img.height : ℚ))⌋).toNat ∧
    th ≤ (⌊(img.height : ℚ) *
        max ((tw : ℚ) / (img.width : ℚ)) ((th : ℚ) / (img.height : ℚ))⌋).toNat ∧
    ((resize_dims img.width img.height tw th).1 - tw) / 2 + tw ≤
        (resize_dims img.width img.height tw th).1 ∧
    ((resize_dims img.width img.height tw th).2 - th) / 2 + th ≤
        (resize_dims img.width img.height tw th).2 := by
  have hw0 : ((img.width : ℚ)) ≠ 0 := by positivity
  have hh0 : ((img.height : ℚ)) ≠ 0 := by positivity
  set r : ℚ := max ((tw : ℚ) / (img.width : ℚ)) ((th : ℚ) / (img.height : ℚ))
    with hr
  have hcw : (tw : ℚ) ≤ (img.width : ℚ) * r := by
    calc (tw : ℚ) = (img.width : ℚ) * ((tw : ℚ) / (img.width : ℚ)) := by
          rw [mul_comm, div_mul_cancel₀ _ hw0]
    _ ≤ (img.width : ℚ) * r :=
        mul_le_mul_of_nonneg_left (le_max_left _ _) (by positivity)
  have hch : (th : ℚ) ≤ (img.height : ℚ) * r := by
    calc (th : ℚ) = (img.height : ℚ) * ((th : ℚ) / (img.height : ℚ)) := by
          rw [mul_comm, div_mul_cancel₀ _ hh0]
    _ ≤ (img.height : ℚ) * r :=
        mul_le_mul_of_nonneg_left (le_max_right _ _) (by positivity)
  have hfw : (tw : Int) ≤ ⌊(img.width : ℚ) * r⌋ := by
    rw [Int.le_floor]
    push_cast
    exact hcw
  have hfh : (th : Int) ≤ ⌊(img.height : ℚ) * r⌋ := by
    rw [Int.le_floor]
    push_cast
    exact hch
  have hnw : tw ≤ (⌊(img.width : ℚ) * r⌋).toNat := by omega
  have hnh : th ≤ (⌊(img.height : ℚ) * r⌋).toNat := by omega
  have hd1 : tw ≤ (resize_dims img.width img.height tw th).1 := by
    simp only [resize_dims]
    exact le_max_right _ _
  have hd2 : th ≤ (resize_dims img.width img.height tw th).2 := by
    simp only [resize_dims]
    exact le_max_right _ _
  refine ⟨?_, ?_, hcw, hch, hnw, hnh, by omega, by omega⟩
  · simp only [resize_crop, img_crop, img_resize]
    omega
  · simp only [resize_crop, img_crop, img_resize]
    omega

/-- C8 witness: a 100 by 50 source covered into the 720 by 1280 portrait
box comes out at exactly 720 by 1280. -/
theorem C8_witness :
    (resize_crop ⟨100, 50, 0⟩ 720 1280).width = 720 ∧
    (resize_crop ⟨100, 50, 0⟩ 720 1280).height = 1280 :=
  ⟨(C8_resize_crop_exact ⟨100, 50, 0⟩ 720 1280 (by decide) (by decide)).1,
   (C8_resize_crop_exact ⟨100, 50, 0⟩ 720 1280 (by decide) (by decide)).2.1⟩

/-- C9: the content-frame background selection in `create_video` is safe
for every segment index: on the image list acquired for the job it always
yields an image (`isSome`), using `images[i+1]` when `i + 1` is in bounds
and falling back to the last image `images[-1]` otherwise, so no
out-of-bounds access occurs even when fewer images exist than segments. -/
theorem C9_content_frame_access_safe (salt : Int) (net : ImageNetOracle)
    (question script : List Char) (width height : Nat) (i : Nat)
    (images : List (Option Image))
    (himg : get_topic_images salt net question
        (split_script_into_segments script) width height = .ok images) :
    (pick_image images i).isSome = true ∧
    (i + 1 < images.length → pick_image images i = images[i + 1]?) ∧
    (images.length ≤ i + 1 → pick_image images i = images.getLast?) := by
  have heq := get_topic_images_ok salt net question
    (split_script_into_segments script) width height images himg
  have hne : images ≠ [] := by
    rw [heq]
    exact filled_slots_ne_nil salt net.tier1 net.tier2 question _ width height
  exact pick_image_spec images i hne

/-- C9 witness: with both network tiers failing fast (no overall timeout)
on the one-sentence script "The sun is a star.", segment index 3 is past
the image list and the selection still returns an image. -/
theorem C9_witness :
    (pick_image (filled_slots 0 (fun _ => none) (fun _ => none) "sun".toList
        (split_script_into_segments "The sun is a star.".toList) 720 1280)
        3).isSome = true :=
  (C9_content_frame_access_safe 0 c1nonet "sun".toList
    "The sun is a star.".toList 720 1280 3 _
    (get_topic_images_no_timeout 0 c1nonet "sun".toList
      (split_script_into_segments "The sun is a star.".toList) 720 1280
      rfl rfl)).1

/-- C10: whatever the oracles decide (all tier failures, TTS failure, both
assembly paths failing), `create_video` removes the job-scoped temporary
directory before returning, on the success path and on every exception
path; when both assembly paths fail the job itself errors, yet the
directory is still gone. -/
theorem C10_temp_dir_cleanup (question script : List Char)
    (width height : Nat) (o : RunOracle) (fs0 : Bool) :
    (create_video question script width height o fs0).2 = false ∧
    (o.kenburns_ok = false → o.simple_ok = false →
      ∃ e, (create_video question script width height o fs0).1 = .error e) := by
  refine ⟨rfl, ?_⟩
  intro hk hs
  cases hcf : create_video_frames o.salt o.net question script width height with
  | error e => exact ⟨e, by simp [create_video, hcf]⟩
  | ok frames => exact ⟨.runtimeError, by simp [create_video, hcf, hk, hs]⟩

/-- Oracle for the C10 witness: every external effect fails (downloads and
AI requests fail fast, TTS times out, both assembly paths fail). -/
def c10oracle : RunOracle :=
  ⟨0, ⟨fun _ => none, false, fun _ => none, false⟩,
   ⟨false, false, 0, 0⟩, false, false⟩

/-- C10 witness: a fully failing job still reports an error with the
temporary directory removed. -/
theorem C10_witness :
    (create_video "q".toList "The sun is a star.".toList 720 1280
        c10oracle true).2 = false ∧
    ∃ e, (create_video "q".toList "The sun is a star.".toList 720 1280
        c10oracle true).1 = .error e :=
  ⟨(C10_temp_dir_cleanup "q".toList "The sun is a star.".toList 720 1280
      c10oracle true).1,
   (C10_temp_dir_cleanup "q".toList "The sun is a star.".toList 720 1280
      c10oracle true).2 rfl rfl⟩

/-- C7 (evidence for the code bug): the bokeh RNG seed in
`create_fallback_image` is `hash(topic) + variant`, and Python's built-in
string hash is keyed by a per-process random salt, so two processes with
different salts (here modelled as salts 0 and 1) seed the bokeh generator
differently for the same topic "sun" and slot 0, and the resulting
fallback images are not bit-identical across runs.  The gradient preset,
by contrast, is chosen by `variant % len(GRADIENT_PRESETS)` alone. -/
theorem C7_fallback_seed_salted :
    fallback_seed 0 "sun".toList 0 ≠ fallback_seed 1 "sun".toList 0 ∧
    create_fallback_image 0 "sun".toList 720 1280 0 ≠
      create_fallback_image 1 "sun".toList 720 1280 0 := by
  constructor <;> decide

lemma collectFrames_length (g : Nat → Option Frame) (is : List Nat)
    (h : ∀ i ∈ is, (g i).isSome = true) :
    ∃ fs, collectFrames g is = some fs ∧ fs.length = is.length := by
  induction is with
  | nil => exact ⟨[], rfl, rfl⟩
  | cons i is ih =>
    obtain ⟨f, hf⟩ := Option.isSome_iff_exists.mp (h i (by simp))
    obtain ⟨fs, hfs, hlen⟩ := ih (fun j hj => h j (by simp [hj]))
    exact ⟨f :: fs, by simp [collectFrames, hf, hfs], by simp [hlen]⟩

lemma create_video_frames_ok (salt : Int) (net : ImageNetOracle)
    (question script : List Char) (width height : Nat)
    (h1 : net.tier1_timeout = false) (h2 : net.tier2_timeout = false) :
    ∃ l, create_video_frames salt net question script width height
        = .ok l ∧
      l.length = (split_script_into_segments script).length + 1 := by
  set segments := split_script_into_segments script with hsegs
  set images := filled_slots salt net.tier1 net.tier2 question segments
    width height with himgs
  have hok : get_topic_images salt net question segments width height =
      .ok images := by
    rw [himgs]
    exact get_topic_images_no_timeout salt net question segments width height
      h1 h2
  have hne : images ≠ [] :=
    filled_slots_ne_nil salt net.tier1 net.tier2 question segments
      width height
  have hlen0 : 0 < images.length := List.length_pos.mpr hne
  have hps : (pyIndex images 0).isSome = true := by
    simp only [pyIndex, le_refl, if_pos, Int.toNat_zero]
    rw [List.getElem?_eq_getElem hlen0]
    rfl
  obtain ⟨img0, himg0⟩ := Option.isSome_iff_exists.mp hps
  have hg : ∀ i ∈ List.range segments.length,
      ((pick_image images i).map (fun img =>
        create_frame img (segments.getD i []) (i + 1) segments.length
          false width height)).isSome = true := by
    intro i _
    have h1 := (pick_image_spec images i hne).1
    cases hpi : pick_image images i
    · rw [hpi] at h1
      simp at h1
    · simp
  obtain ⟨fs, hfs, hflen⟩ := collectFrames_length
    (fun i => (pick_image images i).map (fun img =>
      create_frame img (segments.getD i []) (i + 1) segments.length
        false width height))
    (List.range segments.length) hg
  refine ⟨create_frame img0 question 0 segments.length true width height
      :: fs, ?_, by simp [hflen]⟩
  simp only [create_video_frames]
  rw [← hsegs, hok]
  simp only [exceptBind_ok]
  rw [himg0]
  simp only [pyRaise_some, exceptBind_ok]
  rw [hfs]
  simp only [pyRaise_some, exceptMap_ok]

-- C2 counterexample input: six sentences of 100 characters each ---------------

/-- One 100-character sentence (99 letters plus a period). -/
def c2sentence : List Char := List.replicate 99 'a' ++ ['.']

/-- A script of six such sentences: it splits into six segments, because
appending any second 100-character sentence to a chunk would reach the
200-character cap. -/
def c2script : List Char := (List.replicate 6 c2sentence).flatten

/-- C2 counterexample: on a script with six segments the pipeline renders
seven frames, but `get_topic_images` returns only `1 + min(6, 5) = 6`
images — not `segmentCount + 1 = 7` as the claim states. -/
theorem C2_counterexample :
    (split_script_into_segments c2script).length = 6 ∧
    (get_topic_images 0 c1nonet "q".toList
        (split_script_into_segments c2script) 720 1280).map List.length ≠
      .ok ((split_script_into_segments c2script).length + 1) ∧
    (create_video_frames 0 c1nonet "q".toList c2script 720 1280).map
        List.length = .ok 7 := by
  have hseg : (split_script_into_segments c2script).length = 6 := by decide
  refine ⟨hseg, ?_, ?_⟩
  · rw [get_topic_images_no_timeout 0 c1nonet "q".toList
        (split_script_into_segments c2script) 720 1280 rfl rfl,
      exceptMap_ok, filled_slots_length, hseg]
    decide
  · decide

/-- C2 amended: for every run in which neither image phase hits its
overall collection deadline (a timeout aborts the whole job instead), the
pipeline renders exactly `segmentCount + 1` frames, while every image list
`get_topic_images` returns has `1 + min(segmentCount, 5)` entries; the two
counts agree exactly when the script yields at most five segments. -/
theorem C2_amended (salt : Int) (net : ImageNetOracle)
    (question script : List Char) (width height : Nat)
    (_hscript : script ≠ [])
    (h1 : net.tier1_timeout = false) (h2 : net.tier2_timeout = false) :
    (create_video_frames salt net question script width height).map
        List.length =
      .ok ((split_script_into_segments script).length + 1) ∧
    ∀ images, get_topic_images salt net question
        (split_script_into_segments script) width height = .ok images →
      images.length = 1 + min (split_script_into_segments script).length 5 ∧
      ((split_script_into_segments script).length ≤ 5 →
        images.length = (split_script_into_segments script).length + 1) := by
  obtain ⟨l, hl, hlen⟩ := create_video_frames_ok salt net question script
    width height h1 h2
  refine ⟨by rw [hl, exceptMap_ok, hlen], ?_⟩
  intro images himg
  have heq := get_topic_images_ok salt net question
    (split_script_into_segments script) width height images himg
  rw [heq, filled_slots_length]
  exact ⟨rfl, fun h5 => by omega⟩

/-- The two-sentence demo script from the spec's end-to-end scenario A. -/
def c2demo : List Char := "The sun is a star. It provides light and heat.".toList

/-- C2 witness: on the demo script, with no overall timeout, the pipeline
renders two frames and every returned image list has two entries. -/
theorem C2_witness :
    (create_video_frames 0 c1nonet "sun".toList c2demo 720 1280).map
        List.length =
      .ok ((split_script_into_segments c2demo).length + 1) ∧
    ∀ images, get_topic_images 0 c1nonet "sun".toList
        (split_script_into_segments c2demo) 720 1280 = .ok images →
      images.length = 1 + min (split_script_into_segments c2demo).length 5 ∧
      ((split_script_into_segments c2demo).length ≤ 5 →
        images.length = (split_script_into_segments c2demo).length + 1) :=
  ⟨(C2_amended 0 c1nonet "sun".toList c2demo 720 1280 (by decide) rfl rfl).1,
   (C2_amended 0 c1nonet "sun".toList c2demo 720 1280 (by decide) rfl rfl).2⟩

-- ───────────────────────── C4: segment packing ─────────────────────────

lemma joinSp_ne_nil {g : List (List Char)} (hg : g ≠ [])
    (hmem : ∀ x ∈ g, x ≠ []) : joinSp g ≠ [] := by
  match g with
  | [] => exact absurd rfl hg
  | [s] => exact hmem s (by simp)
  | s :: t :: rest => simp [joinSp]

lemma joinSp_cons_cons (a b : List Char) (t : List (List Char)) :
    joinSp (a :: b :: t) = a ++ ' ' :: joinSp (b :: t) := rfl

lemma joinSp_append_single (g : List (List Char)) (s : List Char)
    (hg : g ≠ []) : joinSp (g ++ [s]) = joinSp g ++ ' ' :: s := by
  induction g with
  | nil => exact absurd rfl hg
  | cons a t ih =>
    cases t with
    | nil => simp [joinSp]
    | cons b t2 =>
      have ihh := ih (by simp)
      rw [List.cons_append b t2 [s]] at ihh
      rw [List.cons_append a (b :: t2) [s], List.cons_append b t2 [s],
        joinSp_cons_cons, joinSp_cons_cons, ihh]
      simp

/-- The grouped mirror of `packStep`: the same greedy loop, but the current
chunk is kept as the list of sentences it joins. -/
def packStepG (st : List (List (List Char)) × List (List Char))
    (s : List Char) : List (List (List Char)) × List (List Char) :=
  if (joinSp st.2).length + s.length < 200 then
    (st.1, st.2 ++ [s])
  else
    ((if st.2 = [] then st.1 else st.1 ++ [st.2]), [s])

/-- The grouped mirror of `packFinish`. -/
def packFinishG (st : List (List (List Char)) × List (List Char)) :
    List (List (List Char)) :=
  if st.2 = [] then st.1 else st.1 ++ [st.2]

/-- The grouping of the surviving sentences into the greedy chunks: chunk
`k` of `split_script_into_segments` is the space-join of group `k`. -/
def packGroups (sentences : List (List Char)) : List (List (List Char)) :=
  packFinishG (sentences.foldl packStepG ([], []))

lemma pack_sim (l : List (List Char)) :
    ∀ gs cur, (∀ x ∈ l, x ≠ []) → (∀ x ∈ cur, x ≠ []) →
    l.foldl packStep (gs.map joinSp, joinSp cur) =
      ((l.foldl packStepG (gs, cur)).1.map joinSp,
        joinSp (l.foldl packStepG (gs, cur)).2) := by
  induction l with
  | nil => intro gs cur _ _; rfl
  | cons s t ih =>
    intro gs cur hl hcur
    have hs : s ≠ [] := hl s (by simp)
    have ht : ∀ x ∈ t, x ≠ [] := fun x hx => hl x (by simp [hx])
    by_cases hcond : (joinSp cur).length + s.length < 200
    · have hstep : packStep (gs.map joinSp, joinSp cur) s =
          (gs.map joinSp, joinSp (cur ++ [s])) := by
        by_cases hc : cur = []
        · subst hc; simp [packStep, hcond, joinSp]
        · have hne : joinSp cur ≠ [] := joinSp_ne_nil hc hcur
          simp [packStep, hcond, hne, joinSp_append_single cur s hc]
      have hstepG : packStepG (gs, cur) s = (gs, cur ++ [s]) := by
        simp [packStepG, hcond]
      rw [List.foldl_cons, List.foldl_cons, hstep, hstepG]
      refine ih gs (cur ++ [s]) ht ?_
      intro x hx
      rcases List.mem_append.mp hx with h | h
      · exact hcur x h
      · simp only [List.mem_singleton] at h
        subst h; exact hs
    · have hstep : packStep (gs.map joinSp, joinSp cur) s =
          ((if cur = [] then gs else gs ++ [cur]).map joinSp, joinSp [s]) := by
        by_cases hc : cur = []
        · subst hc; simp [packStep, hcond, joinSp]
        · have hne : joinSp cur ≠ [] := joinSp_ne_nil hc hcur
          simp [packStep, hcond, hc, hne, joinSp]
      have hstepG : packStepG (gs, cur) s =
          ((if cur = [] then gs else gs ++ [cur]), [s]) := by
        simp [packStepG, hcond]
      rw [List.foldl_cons, List.foldl_cons, hstep, hstepG]
      refine ih (if cur = [] then gs else gs ++ [cur]) [s] ht ?_
      intro x hx
      simp only [List.mem_singleton] at hx
      subst hx; exact hs

lemma packStepG_flat (st : List (List (List Char)) × List (List Char))
    (s : List Char) :
    (packStepG st s).1.flatten ++ (packStepG st s).2 =
      (st.1.flatten ++ st.2) ++ [s] := by
  by_cases hcond : (joinSp st.2).length + s.length < 200
  · simp [packStepG, hcond]
  · by_cases hc : st.2 = []
    · simp [packStepG, hcond, hc]
    · simp [packStepG, hcond, hc]

lemma foldG_flat (l : List (List Char)) :
    ∀ st, ((l.foldl packStepG st).1.flatten ++ (l.foldl packStepG st).2) =
      (st.1.flatten ++ st.2) ++ l := by
  induction l with
  | nil => intro st; simp
  | cons s t ih =>
    intro st
    rw [List.foldl_cons, ih (packStepG st s), packStepG_flat]
    simp

lemma packFinishG_flat (st : List (List (List Char)) × List (List Char)) :
    (packFinishG st).flatten = st.1.flatten ++ st.2 := by
  by_cases hc : st.2 = []
  · simp [packFinishG, hc]
  · simp [packFinishG, hc]

/-- The invariant maintained by the grouped packing loop: every finished
group is non-empty with non-empty members, every multi-sentence group
joins to at most 200 characters, and the same holds for the open chunk. -/
def GoodSt (st : List (List (List Char)) × List (List Char)) : Prop :=
  (∀ g ∈ st.1, g ≠ []) ∧
  (∀ g ∈ st.1, ∀ x ∈ g, x ≠ []) ∧
  (∀ x ∈ st.2, x ≠ []) ∧
  (∀ g ∈ st.1, 2 ≤ g.length → (joinSp g).length ≤ 200) ∧
  (2 ≤ st.2.length → (joinSp st.2).length ≤ 200)

lemma packStepG_good (st : List (List (List Char)) × List (List Char))
    (s : List Char) (hs : s ≠ []) (h : GoodSt st) :
    GoodSt (packStepG st s) := by
  obtain ⟨hA, hB, hC, hD, hE⟩ := h
  by_cases hcond : (joinSp st.2).length + s.length < 200
  · refine ⟨?_, ?_, ?_, ?_, ?_⟩ <;> simp only [packStepG, hcond, if_pos]
    · exact hA
    · exact hB
    · intro x hx
      rcases List.mem_append.mp hx with hx | hx
      · exact hC x hx
      · simp only [List.mem_singleton] at hx
        subst hx; exact hs
    · exact hD
    · intro hlen2
      have hc2 : st.2 ≠ [] := by
        intro hnil
        rw [hnil] at hlen2
        simp at hlen2
      rw [joinSp_append_single st.2 s hc2]
      simp only [List.length_append, List.length_cons]
      omega
  · have step : packStepG st s =
        ((if st.2 = [] then st.1 else st.1 ++ [st.2]), [s]) := by
      simp [packStepG, hcond]
    rw [step]
    by_cases hc : st.2 = []
    · simp only [if_pos hc]
      refine ⟨hA, hB, ?_, hD, ?_⟩
      · intro x hx
        simp only [List.mem_singleton] at hx
        subst hx; exact hs
      · intro h2; simp at h2
    · simp only [if_neg hc]
      refine ⟨?_, ?_, ?_, ?_, ?_⟩
      · intro g hg
        rcases List.mem_append.mp hg with hg | hg
        · exact hA g hg
        · simp only [List.mem_singleton] at hg
          subst hg; exact hc
      · intro g hg
        rcases List.mem_append.mp hg with hg | hg
        · exact hB g hg
        · simp only [List.mem_singleton] at hg
          subst hg; exact hC
      · intro x hx
        simp only [List.mem_singleton] at hx
        subst hx; exact hs
      · intro g hg
        rcases List.mem_append.mp hg with hg | hg
        · exact hD g hg
        · simp only [List.mem_singleton] at hg
          subst hg; exact hE
      · intro h2; simp at h2

lemma foldG_good (l : List (List Char)) :
    ∀ st, (∀ x ∈ l, x ≠ []) → GoodSt st → GoodSt (l.foldl packStepG st) := by
  induction l with
  | nil => intro st _ h; exact h
  | cons s t ih =>
    intro st hl h
    rw [List.foldl_cons]
    exact ih (packStepG st s) (fun x hx => hl x (by simp [hx]))
      (packStepG_good st s (hl s (by simp)) h)

lemma packFinish_sim (st : List (List (List Char)) × List (List Char))
    (hmem : ∀ x ∈ st.2, x ≠ []) :
    packFinish (st.1.map joinSp, joinSp st.2) = (packFinishG st).map joinSp := by
  by_cases hc : st.2 = []
  · rw [packFinish, packFinishG, hc]
    simp [joinSp]
  · have hne : joinSp st.2 ≠ [] := joinSp_ne_nil hc hmem
    simp [packFinish, packFinishG, hc, hne]

lemma packFinishG_props (st : List (List (List Char)) × List (List Char))
    (h : GoodSt st) :
    (∀ g ∈ packFinishG st, g ≠ []) ∧
    (∀ g ∈ packFinishG st, 2 ≤ g.length → (joinSp g).length ≤ 200) := by
  obtain ⟨hA, _hB, hC, hD, hE⟩ := h
  by_cases hc : st.2 = []
  · simp only [packFinishG, if_pos hc]
    exact ⟨hA, hD⟩
  · simp only [packFinishG, if_neg hc]
    constructor
    · intro g hg
      rcases List.mem_append.mp hg with hg | hg
      · exact hA g hg
      · simp only [List.mem_singleton] at hg
        subst hg; exact hc
    · intro g hg
      rcases List.mem_append.mp hg with hg | hg
      · exact hD g hg
      · simp only [List.mem_singleton] at hg
        subst hg; exact hE

/-- C4 amended: `split_script_into_segments` always returns a non-empty
list; the surviving fragments are exactly those strictly longer than 10
characters (so 10-character fragments are discarded too); with no
surviving sentence the whole script is the single segment; otherwise the
chunks are precisely the space-joins of a greedy grouping of the surviving
sentences in order (no sentence is split across chunks), and every chunk
that joins two or more sentences has at most 200 characters — a chunk
holding a single oversized sentence may be longer. -/
theorem C4_amended (script : List Char) :
    split_script_into_segments script ≠ [] ∧
    (∀ p ∈ sentencesOf script, 10 < p.length) ∧
    (sentencesOf script = [] → split_script_into_segments script = [script]) ∧
    (sentencesOf script ≠ [] →
      packGroups (sentencesOf script) ≠ [] ∧
      (packGroups (sentencesOf script)).flatten = sentencesOf script ∧
      (∀ g ∈ packGroups (sentencesOf script), g ≠ []) ∧
      split_script_into_segments script =
        (packGroups (sentencesOf script)).map joinSp ∧
      (∀ g ∈ packGroups (sentencesOf script), 2 ≤ g.length →
        (joinSp g).length ≤ 200)) := by
  have hsent : ∀ p ∈ sentencesOf script, 10 < p.length := by
    intro p hp
    have := (List.mem_filter.mp hp).2
    simpa using this
  have hmem : ∀ x ∈ sentencesOf script, x ≠ [] := by
    intro x hx h0
    have := hsent x hx
    rw [h0] at this
    simp at this
  have hne : split_script_into_segments script ≠ [] := by
    simp only [split_script_into_segments]
    split_ifs with h
    · simp
    · exact h
  refine ⟨hne, hsent, ?_, ?_⟩
  · intro h
    simp only [split_script_into_segments, h]
    rfl
  · intro hs
    set G := (sentencesOf script).foldl packStepG ([], []) with hG
    have hgood : GoodSt G := foldG_good (sentencesOf script) ([], []) hmem
      ⟨by simp, by simp, by simp, by simp, by intro h2; simp at h2⟩
    have hjnil : joinSp [] = [] := rfl
    have hsim := pack_sim (sentencesOf script) [] [] hmem (by simp)
    rw [List.map_nil, hjnil] at hsim
    have hpg : packGroups (sentencesOf script) = packFinishG G := by
      rw [hG]
      rfl
    have hflat : (packGroups (sentencesOf script)).flatten =
        sentencesOf script := by
      rw [hpg, packFinishG_flat, hG, foldG_flat]
      simp
    have hgne : packGroups (sentencesOf script) ≠ [] := by
      intro h0
      apply hs
      rw [h0] at hflat
      simpa using hflat.symm
    obtain ⟨hfin_ne, hfin_bound⟩ := packFinishG_props G hgood
    have hsplit : split_script_into_segments script =
        (packGroups (sentencesOf script)).map joinSp := by
      have hpf : packFinish ((sentencesOf script).foldl packStep ([], [])) =
          (packGroups (sentencesOf script)).map joinSp := by
        rw [hsim, hpg]
        exact packFinish_sim G hgood.2.2.1
      have hpne : packFinish ((sentencesOf script).foldl packStep ([], []))
          ≠ [] := by
        rw [hpf]
        simpa using hgne
      simp only [split_script_into_segments, if_neg hpne]
      exact hpf
    refine ⟨hgne, hflat, ?_, hsplit, ?_⟩
    · rw [hpg]; exact hfin_ne
    · rw [hpg]; exact hfin_bound

-- C4 counterexample input ----------------------------------------------------

/-- A fragment of exactly 10 characters (not "under 10"). -/
def c4frag : List Char := "abcdefghi.".toList

/-- A single 200-character sentence. -/
def c4long : List Char := List.replicate 199 'a' ++ ['.']

/-- The counterexample script: the 10-character fragment followed by the
200-character sentence. -/
def c4script : List Char := c4frag ++ ' ' :: c4long

/-- C4 counterexample: on `c4script` the code returns the single chunk
`c4long`, which has exactly 200 characters — not fewer than 200 — and the
10-character fragment "abcdefghi." (not under 10 characters) appears as no
chunk at all: the code discards fragments of length up to and including
10. -/
theorem C4_counterexample :
    split_script_into_segments c4script = [c4long] ∧
    (∃ seg ∈ split_script_into_segments c4script, ¬ seg.length < 200) ∧
    c4frag.length = 10 ∧
    ∀ seg ∈ split_script_into_segments c4script, seg ≠ c4frag := by
  have h : split_script_into_segments c4script = [c4long] := by decide
  refine ⟨h, ⟨c4long, by rw [h]; simp, by decide⟩, by decide, ?_⟩
  intro seg hseg
  rw [h] at hseg
  simp only [List.mem_singleton] at hseg
  subst hseg
  decide

/-- C4 witness: on the two-sentence demo script the segments are exactly
the space-joins of the greedy grouping of the surviving sentences. -/
theorem C4_witness :
    packGroups (sentencesOf c2demo) ≠ [] ∧
    (packGroups (sentencesOf c2demo)).flatten = sentencesOf c2demo ∧
    (∀ g ∈ packGroups (sentencesOf c2demo), g ≠ []) ∧
    split_script_into_segments c2demo =
      (packGroups (sentencesOf c2demo)).map joinSp ∧
    (∀ g ∈ packGroups (sentencesOf c2demo), 2 ≤ g.length →
      (joinSp g).length ≤ 200) :=
  (C4_amended c2demo).2.2.2 (by decide)

-- ───────────────────────── C3: subtitle cues ─────────────────────────

lemma rhe_ge_floor (q : ℚ) : ⌊q⌋ ≤ rhe q := by
  unfold rhe
  split_ifs <;> omega

lemma rhe_le_floor_add_one (q : ℚ) : rhe q ≤ ⌊q⌋ + 1 := by
  unfold rhe
  split_ifs <;> omega

lemma rhe_mono {a b : ℚ} (h : a ≤ b) : rhe a ≤ rhe b := by
  rcases eq_or_lt_of_le h with rfl | hlt
  · exact le_refl _
  have hf : ⌊a⌋ ≤ ⌊b⌋ := Int.floor_le_floor h
  rcases lt_or_eq_of_le hf with hflt | hfeq
  · calc rhe a ≤ ⌊a⌋ + 1 := rhe_le_floor_add_one a
    _ ≤ ⌊b⌋ := by omega
    _ ≤ rhe b := rhe_ge_floor b
  · by_cases hfa : a - ⌊a⌋ < 1/2
    · have ha : rhe a = ⌊a⌋ := by
        unfold rhe
        rw [if_pos hfa]
      rw [ha, hfeq]
      exact rhe_ge_floor b
    · have hfb : 1/2 < b - ⌊b⌋ := by
        push_neg at hfa
        rw [← hfeq]
        linarith
      have hb : rhe b = ⌊b⌋ + 1 := by
        unfold rhe
        rw [if_neg (by linarith), if_pos hfb]
      rw [hb, ← hfeq]
      exact rhe_le_floor_add_one a

lemma round2_mono {a b : ℚ} (h : a ≤ b) : round2 a ≤ round2 b := by
  unfold round2
  have h1 : rhe (a * 100) ≤ rhe (b * 100) := rhe_mono (by linarith)
  have h2 : ((rhe (a * 100) : ℚ)) ≤ (rhe (b * 100) : ℚ) := by
    exact_mod_cast h1
  linarith

/-- C3 amended: for every script and non-negative total duration `D`, an
empty word list yields no cues; otherwise there are exactly
`ceil(W/6) = (W+5)/6` cues, cue `j` covers the consecutive window of at
most 6 words starting at word `6j` with the uniform per-word slice `D/W`
and 2-decimal (half-to-even) rounded endpoints, every cue's end is at most
`round2 D`, the last cue's end equals `round2 D` — the 2-decimal rounding
of the supplied duration, not `D` itself — and consecutive cues are
contiguous (each start equals the previous end), hence ordered and
non-overlapping. -/
theorem C3_amended (script : List Char) (D : ℚ) (hD : 0 ≤ D) :
    (pySplitWs script = [] → generate_subtitle_data script D = []) ∧
    (pySplitWs script ≠ [] →
      (generate_subtitle_data script D).length =
          ((pySplitWs script).length + 5) / 6 ∧
      (∀ j, j < (generate_subtitle_data script D).length →
        (generate_subtitle_data script D)[j]? = some
          { text := joinSp (((pySplitWs script).drop (6 * j)).take 6)
            start := round2 ((6 * j : Nat) *
              (D / ((pySplitWs script).length : ℚ)))
            stop := round2 (min (((6 * j + 6 : Nat) : ℚ) *
              (D / ((pySplitWs script).length : ℚ))) D) }) ∧
      (∀ j : Nat, (((pySplitWs script).drop (6 * j)).take 6).length ≤ 6) ∧
      (∀ c ∈ generate_subtitle_data script D, c.stop ≤ round2 D) ∧
      (∀ hc : generate_subtitle_data script D ≠ [],
        ((generate_subtitle_data script D).getLast hc).stop = round2 D) ∧
      (∀ j, j + 1 < (generate_subtitle_data script D).length →
        ∃ a b, (generate_subtitle_data script D)[j]? = some a ∧
          (generate_subtitle_data script D)[j + 1]? = some b ∧
          b.start = a.stop)) := by
  constructor
  · intro h
    simp [generate_subtitle_data, h]
  · intro hw
    have hW : 0 < (pySplitWs script).length := List.length_pos.mpr hw
    have hlen0 : ¬ ((pySplitWs script).length = 0) := by omega
    have hWQ : (0 : ℚ) < ((pySplitWs script).length : ℚ) := by
      exact_mod_cast hW
    have htpw0 : 0 ≤ D / ((pySplitWs script).length : ℚ) :=
      div_nonneg hD (le_of_lt hWQ)
    have hWcancel : ((pySplitWs script).length : ℚ) *
        (D / ((pySplitWs script).length : ℚ)) = D := by
      field_simp
    have hgen : generate_subtitle_data script D =
        (List.range (((pySplitWs script).length + 5) / 6)).map (fun j =>
          ({ text := joinSp (((pySplitWs script).drop (6 * j)).take 6)
             start := round2 ((6 * j : Nat) *
               (D / ((pySplitWs script).length : ℚ)))
             stop := round2 (min (((6 * j + 6 : Nat) : ℚ) *
               (D / ((pySplitWs script).length : ℚ))) D) } : Cue)) := by
      simp only [generate_subtitle_data]
      rw [if_neg hlen0]
    have hmul_le : ∀ m : Nat, m ≤ (pySplitWs script).length →
        ((m : ℚ)) * (D / ((pySplitWs script).length : ℚ)) ≤ D := by
      intro m hm
      calc ((m : ℚ)) * (D / ((pySplitWs script).length : ℚ))
          ≤ (((pySplitWs script).length : ℚ)) *
            (D / ((pySplitWs script).length : ℚ)) :=
            mul_le_mul_of_nonneg_right (by exact_mod_cast hm) htpw0
      _ = D := hWcancel
    have hmul_ge : ∀ m : Nat, (pySplitWs script).length ≤ m →
        D ≤ ((m : ℚ)) * (D / ((pySplitWs script).length : ℚ)) := by
      intro m hm
      calc D = (((pySplitWs script).length : ℚ)) *
            (D / ((pySplitWs script).length : ℚ)) := hWcancel.symm
      _ ≤ ((m : ℚ)) * (D / ((pySplitWs script).length : ℚ)) :=
            mul_le_mul_of_nonneg_right (by exact_mod_cast hm) htpw0
    refine ⟨by rw [hgen]; simp, ?_, ?_, ?_, ?_, ?_⟩
    · intro j hj
      rw [hgen] at hj ⊢
      rw [List.length_map, List.length_range] at hj
      rw [List.getElem?_map, List.getElem?_range hj]
      rfl
    · intro j
      rw [List.length_take]
      exact min_le_left _ _
    · intro c hc
      rw [hgen] at hc
      simp only [List.mem_map, List.mem_range] at hc
      obtain ⟨j, _, rfl⟩ := hc
      exact round2_mono (min_le_right _ _)
    · intro hne
      rw [List.getLast_eq_getElem]
      have hlen : (generate_subtitle_data script D).length =
          ((pySplitWs script).length + 5) / 6 := by
        rw [hgen]; simp
      have hn1 : 1 ≤ ((pySplitWs script).length + 5) / 6 := by omega
      have hidx : (generate_subtitle_data script D).length - 1 <
          (generate_subtitle_data script D).length := by
        rw [hlen]; omega
      have := hgen
      rw [List.getElem_of_eq hgen]
      rw [List.getElem_map]
      rw [List.getElem_range]
      have h6n : (pySplitWs script).length ≤
          6 * ((generate_subtitle_data script D).length - 1) + 6 := by
        rw [hlen]; omega
      have hminD : min (((6 * ((generate_subtitle_data script D).length - 1)
            + 6 : Nat) : ℚ) *
          (D / ((pySplitWs script).length : ℚ))) D = D :=
        min_eq_right (hmul_ge _ h6n)
      simp only [hminD]
    · intro j hj
      have hlen : (generate_subtitle_data script D).length =
          ((pySplitWs script).length + 5) / 6 := by
        rw [hgen]; simp
      have hjn : j + 1 < ((pySplitWs script).length + 5) / 6 := by
        rw [hlen] at hj; omega
      have hja : j < ((pySplitWs script).length + 5) / 6 := by omega
      have hget : ∀ k, k < ((pySplitWs script).length + 5) / 6 →
          (generate_subtitle_data script D)[k]? = some
            { text := joinSp (((pySplitWs script).drop (6 * k)).take 6)
              start := round2 ((6 * k : Nat) *
                (D / ((pySplitWs script).length : ℚ)))
              stop := round2 (min (((6 * k + 6 : Nat) : ℚ) *
                (D / ((pySplitWs script).length : ℚ))) D) } := by
        intro k hk
        rw [hgen, List.getElem?_map, List.getElem?_range hk]
        rfl
      refine ⟨_, _, hget j hja, hget (j + 1) hjn, ?_⟩
      have h6 : 6 * j + 6 ≤ (pySplitWs script).length - 1 := by omega
      have h6W : 6 * j + 6 < (pySplitWs script).length := by omega
      have hmin : min (((6 * j + 6 : Nat) : ℚ) *
          (D / ((pySplitWs script).length : ℚ))) D =
          ((6 * j + 6 : Nat) : ℚ) *
            (D / ((pySplitWs script).length : ℚ)) :=
        min_eq_left (hmul_le _ (by omega))
      simp only [hmin]
      have hnat : 6 * (j + 1) = 6 * j + 6 := by ring
      rw [hnat]

/-- C3 counterexample: with the one-word script "hi" and total duration
`D = 3/500` (0.006 s), the single cue's end is `round(0.006, 2) = 0.01`,
which exceeds `D` — so neither "every cue's end is at most D" nor "the
last cue's end equals D" holds as stated; and with a negative duration
the starts are not even ordered, so the claim needs `0 ≤ D`. -/
theorem C3_counterexample :
    generate_subtitle_data "hi".toList (3/500) =
      [{ text := "hi".toList, start := 0, stop := 1/100 }] ∧
    ¬ ((1 : ℚ)/100 ≤ 3/500) ∧
    (generate_subtitle_data "a b c d e f g".toList (-1)).map Cue.start =
      [0, -43/50] ∧
    ((-43 : ℚ)/50 < 0) := by
  have hw1 : pySplitWs "hi".toList = ["hi".toList] := rfl
  have hw7 : pySplitWs "a b c d e f g".toList =
      [['a'], ['b'], ['c'], ['d'], ['e'], ['f'], ['g']] := rfl
  refine ⟨?_, by norm_num, ?_, by norm_num⟩
  · simp only [generate_subtitle_data, hw1]
    norm_num [List.range_succ, List.range_zero, joinSp, round2, rhe, min_def]
    simp only [Int.fract]
    norm_num
  · simp only [generate_subtitle_data, hw7]
    norm_num [List.range_succ, List.range_zero, joinSp, round2, rhe, min_def]
    simp only [Int.fract]
    norm_num

/-- C3 witness: a three-word script over 10 seconds yields one cue. -/
theorem C3_witness :
    (generate_subtitle_data "a b c".toList 10).length =
      ((pySplitWs "a b c".toList).length + 5) / 6 :=
  ((C3_amended "a b c".toList 10 (by norm_num)).2 (by decide)).1
